import Mathlib

/-!
Verification of the aerospike-mcp-server protocol engine against its
natural-language specification.

The Go source is shallowly embedded: Go float64 token arithmetic is modelled
by the rationals (all quantities appearing in the claims are small integers,
on which float64 arithmetic is exact), Go strings by `String` or `List Char`
(the identifier and denylist checks are ASCII, where Go byte length equals
character count), Go buffered channels by bounded lists, and wall-clock time
by an explicit `elapsed` parameter threaded to the points where the source
reads the clock.  Fallible Go functions returning `error` are modelled with
`Option` and `Except`.
-/

/-! ## Rate limiter (internal/audit, token bucket)

Embeds `RateLimiter`, `RateLimitConfig`, `NewRateLimiter`, `refill` and
`Allow` from the audit package.  The mutex is dropped (the embedding is
sequential); `time.Now` is replaced by the `elapsed` parameter of `refill`
and `Allow`, the number of seconds since the last refill. -/

structure RateLimitConfig where
  enabled : Bool
  requestsPerSec : ℚ
  burstSize : Int
deriving DecidableEq, Repr

structure RateLimiter where
  tokens : ℚ
  maxTokens : ℚ
  refillRate : ℚ
  enabled : Bool
deriving DecidableEq, Repr

def NewRateLimiter (cfg : RateLimitConfig) : RateLimiter :=
  let maxTokens : ℚ := if (cfg.burstSize : ℚ) ≤ 0 then 200 else (cfg.burstSize : ℚ)
  let refillRate : ℚ := if cfg.requestsPerSec ≤ 0 then 100 else cfg.requestsPerSec
  { tokens := maxTokens
    maxTokens := maxTokens
    refillRate := refillRate
    enabled := cfg.enabled }

/-- Embeds `refill`: add `elapsed * refillRate` tokens, clamped to capacity. -/
def RateLimiter.refill (r : RateLimiter) (elapsed : ℚ) : RateLimiter :=
  let t : ℚ := r.tokens + elapsed * r.refillRate
  { r with tokens := if r.maxTokens < t then r.maxTokens else t }

/-- Embeds `Allow`: refill lazily, then test-and-decrement one token.
Returns the admission decision together with the updated limiter state. -/
def RateLimiter.Allow (r : RateLimiter) (elapsed : ℚ) : Bool × RateLimiter :=
  if r.enabled = false then (true, r)
  else
    let r := r.refill elapsed
    if 1 ≤ r.tokens then (true, { r with tokens := r.tokens - 1 })
    else (false, r)

/-- The decisions of `n` consecutive `Allow` calls with no wall-clock time
elapsing between them. -/
def allowResults : RateLimiter → Nat → List Bool
  | _, 0 => []
  | r, Nat.succ n =>
    let p := r.Allow 0
    p.1 :: allowResults p.2 n

/-! ## Validator (internal/audit/validator.go) -/

structure ValidatorConfig where
  maxKeyLength : Nat
  maxBinNameLength : Nat
  maxNamespaceLength : Nat
  maxSetNameLength : Nat
  maxBatchSize : Nat
  maxRecordSize : Nat
deriving DecidableEq, Repr

def DefaultValidatorConfig : ValidatorConfig :=
  { maxKeyLength := 1024
    maxBinNameLength := 15
    maxNamespaceLength := 31
    maxSetNameLength := 63
    maxBatchSize := 5000
    maxRecordSize := 1024 * 1024 }

structure Validator where
  maxKeyLength : Nat
  maxBinNameLength : Nat
  maxNamespaceLength : Nat
  maxSetNameLength : Nat
  maxBatchSize : Nat
  maxRecordSize : Nat
deriving DecidableEq, Repr

def NewValidator (cfg : ValidatorConfig) : Validator :=
  { maxKeyLength := cfg.maxKeyLength
    maxBinNameLength := cfg.maxBinNameLength
    maxNamespaceLength := cfg.maxNamespaceLength
    maxSetNameLength := cfg.maxSetNameLength
    maxBatchSize := cfg.maxBatchSize
    maxRecordSize := cfg.maxRecordSize }

structure ValidationError where
  field : String
  message : String
deriving DecidableEq, Repr

/-- Character class of the Go regular expression used by
`isValidIdentifier`: ASCII letters, digits, underscore and hyphen. -/
def isIdentChar (c : Char) : Bool :=
  (('a' ≤ c && c ≤ 'z') || ('A' ≤ c && c ≤ 'Z') ||
    ('0' ≤ c && c ≤ '9') || c == '_' || c == '-')

/-- Embeds `isValidIdentifier`: the anchored one-or-more character-class
match holds exactly when the string is nonempty and every character is in
the class. -/
def isValidIdentifier (s : List Char) : Bool :=
  !s.isEmpty && s.all isIdentChar

def ValidateNamespace (v : Validator) (namespace_ : List Char) : Option ValidationError :=
  if namespace_.isEmpty then
    some { field := "namespace", message := "cannot be empty" }
  else if v.maxNamespaceLength < namespace_.length then
    some { field := "namespace"
           message := "exceeds maximum length of " ++ toString v.maxNamespaceLength }
  else if isValidIdentifier namespace_ = false then
    some { field := "namespace"
           message := "contains invalid characters (must be alphanumeric, underscore, or hyphen)" }
  else none

def ValidateSetName (v : Validator) (setName : List Char) : Option ValidationError :=
  if setName.isEmpty then none
  else if v.maxSetNameLength < setName.length then
    some { field := "set_name"
           message := "exceeds maximum length of " ++ toString v.maxSetNameLength }
  else if isValidIdentifier setName = false then
    some { field := "set_name"
           message := "contains invalid characters (must be alphanumeric, underscore, or hyphen)" }
  else none

def ValidateBinName (v : Validator) (binName : List Char) : Option ValidationError :=
  if binName.isEmpty then
    some { field := "bin_name", message := "cannot be empty" }
  else if v.maxBinNameLength < binName.length then
    some { field := "bin_name"
           message := "exceeds maximum length of " ++ toString v.maxBinNameLength }
  else if isValidIdentifier binName = false then
    some { field := "bin_name"
           message := "contains invalid characters (must be alphanumeric or underscore)" }
  else none

/-- Models the ASCII action of `strings.ToLower`, which the denylist scan
applies to the UDF payload; the four denylisted patterns are pure ASCII. -/
def goToLower (c : Char) : Char := c.toLower

/-- Embeds `strings.Contains`: scan every suffix of `s` for `sub` as a
prefix.  The empty pattern is contained in every string. -/
def goContains : List Char → List Char → Bool
  | [], sub => sub.isEmpty
  | c :: rest, sub => sub.isPrefixOf (c :: rest) || goContains rest sub

def dangerousPatterns : List (List Char) :=
  [String.toList "os.execute", String.toList "io.popen",
   String.toList "loadfile", String.toList "dofile"]

def ValidateUDFCode (_v : Validator) (code : List Char) : Option ValidationError :=
  if code.isEmpty then
    some { field := "code", message := "cannot be empty" }
  else
    let codeLower := code.map goToLower
    match dangerousPatterns.find? (fun pat => goContains codeLower pat) with
    | some _ => some { field := "code", message := "contains potentially dangerous function" }
    | none => none

/-! ## Audit logger (internal/audit/logger.go)

`Event` keeps the fields the claims inspect (level, category, operation,
success, error text); timestamps and durations are real-time data outside
the embedding.  The configured sink (a file or standard error) is modelled
as the append-only list `sink`; JSON serialization is treated as the
identity on events (it cannot fail on this event type). -/

inductive AuditLevel
  | info
  | warning
  | error
  | audit
deriving DecidableEq, Repr

inductive AuditCategory
  | read
  | write
  | admin
  | auth
  | system
deriving DecidableEq, Repr

structure Event where
  level : AuditLevel
  category : AuditCategory
  operation : String
  success : Bool
  error : String
deriving DecidableEq, Repr

structure AuditConfig where
  enabled : Bool
  bufferSize : Int
deriving DecidableEq, Repr

structure Logger where
  enabled : Bool
  sink : List Event
  buffer : List Event
  bufSize : Nat
deriving DecidableEq, Repr

def NewLogger (cfg : AuditConfig) : Logger :=
  let bufSize : Int := if cfg.bufferSize ≤ 0 then 100 else cfg.bufferSize
  { enabled := cfg.enabled, sink := [], buffer := [], bufSize := bufSize.toNat }

/-- Embeds `Log`: when enabled, write the event to the sink and append it to
the in-memory buffer, dropping the oldest buffered event once the buffer
length has reached `bufSize` (the source tests `len(l.buffer) >= l.bufSize`
after appending). -/
def Logger.Log (l : Logger) (event : Event) : Logger :=
  if l.enabled = false then l
  else
    let sink := l.sink ++ [event]
    let buffer := l.buffer ++ [event]
    let buffer := if l.bufSize ≤ buffer.length then buffer.drop 1 else buffer
    { l with sink := sink, buffer := buffer }

/-- Embeds `GetRecentEvents`: clamp the requested count to the buffer length
and return the suffix of that length. -/
def Logger.GetRecentEvents (l : Logger) (count : Nat) : List Event :=
  let c := min count l.buffer.length
  l.buffer.drop (l.buffer.length - c)

/-- Fold of `Log` over a list of events, oldest first. -/
def Logger.LogAll (l : Logger) (events : List Event) : Logger :=
  events.foldl Logger.Log l

def mkTestEvent (op : String) : Event :=
  { level := .info, category := .system, operation := op, success := true, error := "" }

/-! ## Message codec and dispatcher (internal/mcp/server.go)

`Request` and `Response` embed the JSON-RPC envelope types.  A request id is
any JSON value; the two shapes that occur are numbers and strings.  An absent
id (a notification) is `none`.  The raw `params` field is modelled by
`ParamsVal`: absent, a JSON object exposing the fields the handlers decode,
or a JSON value of non-object shape (on which a Go `json.Unmarshal` into a
parameter struct fails).  The external tool and resource registries — the
Capability Registry boundary of the spec — are passed in as the functions of
`Capabilities`; a tool result is modelled as its rendered JSON text.
`ServerState` carries the two pieces of mutable pipeline state (rate limiter
and audit logger) plus `toolCalls`, the observable trace of invocations that
actually reached the downstream capability. -/

inductive RpcId
  | num (n : Int)
  | str (s : String)
deriving DecidableEq, Repr

inductive ParamsVal
  | absent
  | obj (name : Option String) (arguments : Option String) (uri : Option String)
  | nonObject
deriving DecidableEq, Repr

structure Request where
  jsonrpc : String
  id : Option RpcId
  method : String
  params : ParamsVal
deriving DecidableEq, Repr

structure RpcError where
  code : Int
  message : String
  data : Option String
deriving DecidableEq, Repr

def ParseErrorCode : Int := -32700
def InvalidRequestCode : Int := -32600
def MethodNotFoundCode : Int := -32601
def InvalidParamsCode : Int := -32602
def InternalErrorCode : Int := -32603

structure ToolsCallParams where
  name : String
  arguments : Option String
deriving DecidableEq, Repr

structure ContentBlock where
  type : String
  text : String
deriving DecidableEq, Repr

structure ToolsCallResult where
  content : List ContentBlock
  isError : Bool
deriving DecidableEq, Repr

structure ResourcesReadParams where
  uri : String
deriving DecidableEq, Repr

structure ResourceContent where
  uri : String
  mimeType : String
  text : String
deriving DecidableEq, Repr

structure ResourcesReadResult where
  contents : List ResourceContent
deriving DecidableEq, Repr

inductive ResultVal
  | initRes
  | toolsListRes
  | toolsCallRes (r : ToolsCallResult)
  | resourcesListRes
  | resourcesReadRes (r : ResourcesReadResult)
  | promptsListRes
deriving DecidableEq, Repr

structure Response where
  jsonrpc : String
  id : Option RpcId
  result : Option ResultVal
  error : Option RpcError
deriving DecidableEq, Repr

structure Capabilities where
  toolsCall : String → Option String → Except String String
  resourcesRead : String → Except String (String × String)

structure ServerState where
  rateLimiter : RateLimiter
  audit : Logger
  toolCalls : List String
deriving Repr

/-- Go `json.Unmarshal` of the raw params into `ToolsCallParams`: fails on
absent params and on non-object JSON; on an object, missing fields take
their zero values. -/
def decodeToolsCall : ParamsVal → Option ToolsCallParams
  | .absent => none
  | .obj name arguments _ => some { name := name.getD "", arguments := arguments }
  | .nonObject => none

/-- Go `json.Unmarshal` of the raw params into `ResourcesReadParams`. -/
def decodeResourcesRead : ParamsVal → Option ResourcesReadParams
  | .absent => none
  | .obj _ _ uri => some { uri := uri.getD "" }
  | .nonObject => none

/-- Embeds `isWriteOperation`: membership in the write-operation set. -/
def isWriteOperation (op : String) : Bool :=
  op == "put_record" || op == "delete_record" || op == "batch_write" || op == "operate"

/-- Embeds `isAdminOperation`: membership in the administrative set. -/
def isAdminOperation (op : String) : Bool :=
  op == "create_index" || op == "drop_index" || op == "truncate_set" ||
    op == "register_udf" || op == "remove_udf"

def invalidParamsError : RpcError :=
  { code := InvalidParamsCode, message := "Invalid params", data := some "unmarshal error" }

/-- The tool-level result returned when the rate limiter denies a write. -/
def rateLimitedResult : ToolsCallResult :=
  { content := [{ type := "text", text := "Error: rate limit exceeded, please try again later" }]
    isError := true }

/-- The audit event the dispatcher logs when the rate limiter denies. -/
def rateLimitEvent (op : String) : Event :=
  { level := .warning, category := .write, operation := op
    success := false, error := "rate limit exceeded" }

/-- The audit event the dispatcher logs after an invocation completes:
level AUDIT, category from the static method classification, success from
the downstream error. -/
def toolCallEvent (op : String) (err : Option String) : Event :=
  { level := .audit
    category :=
      if isAdminOperation op then .admin
      else if isWriteOperation op then .write
      else .read
    operation := op
    success := err.isNone
    error := err.getD "" }

/-- The invocation half of `handleToolsCall`: record the capability call,
invoke it, log the audit event, and wrap failure as a tool-level error
result. -/
def toolsCallInvoke (caps : Capabilities) (st : ServerState) (cp : ToolsCallParams) :
    (Option ToolsCallResult × Option RpcError) × ServerState :=
  let st := { st with toolCalls := st.toolCalls ++ [cp.name] }
  let res := caps.toolsCall cp.name cp.arguments
  let errText : Option String := match res with
    | .error e => some e
    | .ok _ => none
  let st := { st with audit := st.audit.Log (toolCallEvent cp.name errText) }
  match res with
  | .error e =>
    ((some { content := [{ type := "text", text := "Error: " ++ e }], isError := true },
      none), st)
  | .ok resultJSON =>
    ((some { content := [{ type := "text", text := resultJSON }], isError := false },
      none), st)

/-- Embeds `handleToolsCall`: decode params, consult the rate limiter for
write operations (logging one warning event and short-circuiting with a
tool-level error on denial), then invoke the capability. -/
def handleToolsCall (caps : Capabilities) (elapsed : ℚ) (st : ServerState)
    (params : ParamsVal) : (Option ToolsCallResult × Option RpcError) × ServerState :=
  match decodeToolsCall params with
  | none => ((none, some invalidParamsError), st)
  | some cp =>
    if isWriteOperation cp.name then
      match st.rateLimiter.Allow elapsed with
      | (false, rl) =>
        let st := { st with rateLimiter := rl }
        let st := { st with audit := st.audit.Log (rateLimitEvent cp.name) }
        ((some rateLimitedResult, none), st)
      | (true, rl) =>
        toolsCallInvoke caps { st with rateLimiter := rl } cp
    else
      toolsCallInvoke caps st cp

/-- Embeds `handleResourcesRead`: decode params, read the resource through
the capability, and on a downstream failure return the protocol-level
InternalError carrying the downstream message. -/
def handleResourcesRead (caps : Capabilities) (params : ParamsVal) :
    Option ResourcesReadResult × Option RpcError :=
  match decodeResourcesRead params with
  | none => (none, some invalidParamsError)
  | some rp =>
    match caps.resourcesRead rp.uri with
    | .error e =>
      (none, some { code := InternalErrorCode, message := "Resource read failed", data := some e })
    | .ok (content, mimeType) =>
      (some { contents := [{ uri := rp.uri, mimeType := mimeType, text := content }] }, none)

/-- Embeds `handleInitialize`: absent params are accepted unchecked; object
params decode successfully (their content is only logged); non-object params
fail to decode. -/
def handleInitialize (params : ParamsVal) : Option ResultVal × Option RpcError :=
  match params with
  | .nonObject => (none, some invalidParamsError)
  | _ => (some .initRes, none)

/-- Embeds `routeMethod`: the closed dispatch table over method names. -/
def routeMethod (caps : Capabilities) (elapsed : ℚ) (st : ServerState)
    (method : String) (params : ParamsVal) :
    (Option ResultVal × Option RpcError) × ServerState :=
  if method = "initialize" then (handleInitialize params, st)
  else if method = "initialized" then ((none, none), st)
  else if method = "shutdown" then ((none, none), st)
  else if method = "tools/list" then ((some .toolsListRes, none), st)
  else if method = "tools/call" then
    let out := handleToolsCall caps elapsed st params
    ((out.1.1.map ResultVal.toolsCallRes, out.1.2), out.2)
  else if method = "resources/list" then ((some .resourcesListRes, none), st)
  else if method = "resources/read" then
    let out := handleResourcesRead caps params
    ((out.1.map ResultVal.resourcesReadRes, out.2), st)
  else if method = "prompts/list" then ((some .promptsListRes, none), st)
  else
    ((none, some { code := MethodNotFoundCode, message := "Method not found", data := some method }),
     st)

/-- Embeds `handleMessage`.  The input `none` models bytes on which envelope
parsing (`json.Unmarshal` into `Request`) fails; the returned
`Option Response` mirrors the `*Response` return type of the source, whose
callers treat `nil` as no response to deliver. -/
def handleMessage (caps : Capabilities) (elapsed : ℚ) (st : ServerState)
    (msg : Option Request) : Option Response × ServerState :=
  match msg with
  | none =>
    (some { jsonrpc := "2.0", id := none, result := none
            error := some { code := ParseErrorCode, message := "Parse error"
                            data := some "unmarshal error" } },
     st)
  | some req =>
    if req.jsonrpc ≠ "2.0" then
      (some { jsonrpc := "2.0", id := req.id, result := none
              error := some { code := InvalidRequestCode, message := "Invalid Request"
                              data := some "jsonrpc must be 2.0" } },
       st)
    else
      let out := routeMethod caps elapsed st req.method req.params
      match out.1.2 with
      | some er =>
        (some { jsonrpc := "2.0", id := req.id, result := none, error := some er }, out.2)
      | none =>
        (some { jsonrpc := "2.0", id := req.id, result := out.1.1, error := none }, out.2)

/-! ## Transport outbound-queue policies

Each session owns a buffered channel of capacity 100 holding serialized
responses, modelled as a list (head = oldest).  The push-stream (SSE)
adapter enqueues with a non-blocking send and drops the new message when the
channel is full (`internal/mcp/sse.go`, `handleMessage`); the polling
adapter first performs a non-blocking receive to evict the oldest queued
message and then enqueues the new one (`handleSend` of the long-polling
transport).  Both are deterministic functions of the queue contents. -/

def sessionQueueCapacity : Nat := 100

/-- Push-stream enqueue: non-blocking send; on a full queue the new message
is dropped and the queue is left unchanged. -/
def sseEnqueue (cap : Nat) (q : List String) (m : String) : List String :=
  if q.length < cap then q ++ [m] else q

/-- Polling enqueue: non-blocking send; on a full queue a non-blocking
receive evicts the oldest queued message, then the new message is enqueued. -/
def wsEnqueue (cap : Nat) (q : List String) (m : String) : List String :=
  if q.length < cap then q ++ [m]
  else
    let q := match q with
      | [] => q
      | _ :: rest => rest
    q ++ [m]

/-! ## Concrete fixtures used by closed theorems and witnesses -/

/-- Capabilities whose operations all succeed. -/
def capsOk : Capabilities :=
  { toolsCall := fun _ _ => .ok "ok"
    resourcesRead := fun _ => .ok ("contents", "application/json") }

/-- Capabilities whose resource read fails with a downstream message. -/
def capsFailRes : Capabilities :=
  { toolsCall := fun _ _ => .ok "ok"
    resourcesRead := fun _ => .error "downstream failure" }

/-- Capabilities whose tool invocation fails with a downstream message. -/
def capsFailTool : Capabilities :=
  { toolsCall := fun _ _ => .error "downstream failure"
    resourcesRead := fun _ => .ok ("contents", "application/json") }

/-- A server state with a full token bucket and an enabled audit logger. -/
def stFresh : ServerState :=
  { rateLimiter := NewRateLimiter { enabled := true, requestsPerSec := 100, burstSize := 200 }
    audit := NewLogger { enabled := true, bufferSize := 100 }
    toolCalls := [] }

/-- A server state whose enabled rate limiter has zero tokens. -/
def stExhausted : ServerState :=
  { rateLimiter :=
      { tokens := 0, maxTokens := 200, refillRate := 100, enabled := true }
    audit := NewLogger { enabled := true, bufferSize := 100 }
    toolCalls := [] }

/-- Exactly one of result and error is present in a response. -/
def exclusiveOutcome (r : Response) : Prop :=
  (r.result.isSome = true ∧ r.error = none) ∨ (r.result = none ∧ r.error.isSome = true)

/-- The response `handleMessage` produces for unparseable input bytes. -/
def parseErrorResponse : Response :=
  { jsonrpc := "2.0", id := none, result := none
    error := some { code := ParseErrorCode, message := "Parse error"
                    data := some "unmarshal error" } }

/-! ## Helper lemmas -/

theorem Allow_zero_eq (r : RateLimiter) (hen : r.enabled = true)
    (hle : r.tokens ≤ r.maxTokens) :
    r.Allow 0 =
      if 1 ≤ r.tokens then (true, { r with tokens := r.tokens - 1 }) else (false, r) := by
  unfold RateLimiter.Allow RateLimiter.refill
  rw [hen]
  simp only [Bool.true_eq_false, if_false, zero_mul, add_zero, if_neg (not_lt.2 hle)]
  split
  · rfl
  · rw [Prod.mk.injEq]
    refine ⟨rfl, ?_⟩
    rw [← hen]

theorem allowResults_drain (C : ℕ) :
    ∀ r : RateLimiter, r.enabled = true → r.tokens = (C : ℚ) →
      r.tokens ≤ r.maxTokens →
      allowResults r (C + 1) = List.replicate C true ++ [false] := by
  induction C with
  | zero =>
    intro r hen htok _hle
    have hnot : ¬ (1 : ℚ) ≤ r.tokens := by rw [htok]; norm_num
    simp [allowResults, Allow_zero_eq r hen _hle, hnot]
  | succ n ih =>
    intro r hen htok hle
    have hone : (1 : ℚ) ≤ r.tokens := by
      rw [htok]; exact_mod_cast Nat.one_le_iff_ne_zero.mpr (Nat.succ_ne_zero n)
    have hstep : allowResults r (n + 1 + 1)
        = true :: allowResults { r with tokens := r.tokens - 1 } (n + 1) := by
      simp [allowResults, Allow_zero_eq r hen hle, hone]
    rw [hstep, ih { r with tokens := r.tokens - 1 } hen
        (by rw [htok]; push_cast; ring)
        (by
          have : r.tokens - 1 ≤ r.tokens := by linarith
          exact le_trans this hle)]
    rfl

theorem goContains_iff (s sub : List Char) :
    goContains s sub = true ↔ sub <:+: s := by
  induction s with
  | nil =>
    constructor
    · intro h
      have : sub = [] := by simpa [goContains, List.isEmpty_iff] using h
      simp [this]
    · intro h
      have : sub = [] := List.infix_nil.mp h
      simp [goContains, this]
  | cons c rest ih =>
    simp [goContains, ih, List.infix_cons_iff, List.isPrefixOf_iff_prefix]

/-- The administrative operation set is disjoint from the write-operation
set of the rate-limit check. -/
theorem admin_not_write (op : String) (h : isAdminOperation op = true) :
    isWriteOperation op = false := by
  unfold isAdminOperation at h
  rcases Bool.or_eq_true_iff.mp h with h | h4
  · rcases Bool.or_eq_true_iff.mp h with h | h3
    · rcases Bool.or_eq_true_iff.mp h with h | h2
      · rcases Bool.or_eq_true_iff.mp h with h1 | h1 <;>
          · rw [beq_iff_eq] at h1; subst h1; decide
      · rw [beq_iff_eq] at h2; subst h2; decide
    · rw [beq_iff_eq] at h3; subst h3; decide
  · rw [beq_iff_eq] at h4; subst h4; decide

/-! ## Claims about the rate limiter, audit ring, queue policies, validator -/

/-- C7: an enabled rate limiter constructed with capacity C admits exactly C
consecutive Allow calls with no wall-clock time elapsing and denies the
(C+1)th; and a refill never pushes the available token count above the
capacity (from any state respecting the capacity bound, for any elapsed
time). -/
theorem claim_C7 (C : ℕ) (hC : 0 < C) (rate : ℚ) :
    allowResults
        (NewRateLimiter { enabled := true, requestsPerSec := rate, burstSize := (C : Int) })
        (C + 1)
      = List.replicate C true ++ [false] ∧
    ∀ r : RateLimiter, r.tokens ≤ r.maxTokens →
      ∀ e : ℚ, (r.refill e).tokens ≤ r.maxTokens := by
  have hpos : ¬ (((C : Int) : ℚ) ≤ 0) := by
    push_cast
    exact not_le.mpr (by exact_mod_cast hC)
  constructor
  · apply allowResults_drain
    · rfl
    · show (if (((C : Int) : ℚ)) ≤ 0 then (200 : ℚ) else ((C : Int) : ℚ)) = (C : ℚ)
      rw [if_neg hpos]
      push_cast
      ring
    · exact le_refl _
  · intro r hle e
    unfold RateLimiter.refill
    dsimp only
    split
    · exact le_refl _
    · next h => exact le_of_not_lt h

/-- C7 witness: capacity 3, refill rate 10, four consecutive calls. -/
theorem claim_C7_witness :
    0 < 3 ∧
    allowResults
        (NewRateLimiter { enabled := true, requestsPerSec := 10, burstSize := (3 : Int) }) 4
      = List.replicate 3 true ++ [false] :=
  ⟨by decide, (claim_C7 3 (by decide) 10).1⟩

/-- C3 (code bug): with ring capacity N = 2, after logging three events the
ring retains only the single most recent event, so GetRecentEvents 2
returns one event, not the last two: Log drops the oldest entry as soon as
the buffer length reaches bufSize, so at most bufSize - 1 events are ever
retained. -/
theorem claim_C3_code_bug :
    ((NewLogger { enabled := true, bufferSize := 2 }).LogAll
        [mkTestEvent "e1", mkTestEvent "e2", mkTestEvent "e3"]).GetRecentEvents 2
      = [mkTestEvent "e3"] ∧
    [mkTestEvent "e3"] ≠ [mkTestEvent "e2", mkTestEvent "e3"] := by
  constructor
  · rfl
  · decide

/-- C8: with the outbound queue at capacity, the push-stream adapter drops
the new message and preserves every queued message, while the polling
adapter evicts the oldest queued message and admits the newest.  Both
policies are pure functions of the queue (hence deterministic), and on a
full queue not already containing the new message they produce different
results. -/
theorem claim_C8 (cap : Nat) (q : List String) (m : String)
    (hfull : q.length = cap) (hpos : 0 < cap) :
    sseEnqueue cap q m = q ∧
    wsEnqueue cap q m = q.tail ++ [m] ∧
    (m ∉ q → sseEnqueue cap q m ≠ wsEnqueue cap q m) := by
  have hnotlt : ¬ q.length < cap := by omega
  have hsse : sseEnqueue cap q m = q := by simp [sseEnqueue, hnotlt]
  have hws : wsEnqueue cap q m = q.tail ++ [m] := by
    cases q with
    | nil => simp at hfull; omega
    | cons a rest =>
      have hlen : rest.length + 1 = cap := by simpa using hfull
      simp [wsEnqueue, hnotlt]
      omega
  refine ⟨hsse, hws, ?_⟩
  intro hm heq
  rw [hsse, hws] at heq
  apply hm
  rw [heq]
  exact List.mem_append.mpr (Or.inr (List.mem_singleton.mpr rfl))

/-- C8 witness: the configured capacity 100, a full queue of 100 messages. -/
theorem claim_C8_witness :
    (List.replicate 100 "a").length = sessionQueueCapacity ∧
    sseEnqueue sessionQueueCapacity (List.replicate 100 "a") "b" = List.replicate 100 "a" ∧
    wsEnqueue sessionQueueCapacity (List.replicate 100 "a") "b"
      = (List.replicate 100 "a").tail ++ ["b"] := by
  have h := claim_C8 sessionQueueCapacity (List.replicate 100 "a") "b" (by simp [sessionQueueCapacity]) (by decide)
  exact ⟨by simp [sessionQueueCapacity], h.1, h.2.1⟩

/-- C9: for any configured maximum bin-name length, a bin name of exactly
that length over the allowed characters passes; one character longer fails;
a name containing a character outside the allowed set fails; an empty
namespace fails; an empty set name passes. -/
theorem claim_C9 (v : Validator) (hpos : 0 < v.maxBinNameLength) :
    (∀ s : List Char, s.length = v.maxBinNameLength → s.all isIdentChar = true →
        ValidateBinName v s = none) ∧
    (∀ s : List Char, s.length = v.maxBinNameLength + 1 →
        (ValidateBinName v s).isSome = true) ∧
    (∀ s : List Char, ∀ c ∈ s, isIdentChar c = false → (ValidateBinName v s).isSome = true) ∧
    (ValidateNamespace v []).isSome = true ∧
    ValidateSetName v [] = none := by
  refine ⟨?_, ?_, ?_, rfl, rfl⟩
  · intro s hlen hall
    have hne : s.isEmpty = false := by
      rcases s with _ | ⟨c, rest⟩
      · simp at hlen; omega
      · simp
    have hid : isValidIdentifier s = true := by
      simp [isValidIdentifier, hall, hne]
    unfold ValidateBinName
    rw [if_neg (by simp [hne]), if_neg (by omega : ¬ v.maxBinNameLength < s.length),
      if_neg (by simp [hid])]
  · intro s hlen
    have hne : s.isEmpty = false := by
      rcases s with _ | ⟨c, rest⟩
      · simp at hlen
      · simp
    unfold ValidateBinName
    rw [if_neg (by simp [hne]), if_pos (by omega : v.maxBinNameLength < s.length)]
    rfl
  · intro s c hc hbad
    have hne : s.isEmpty = false := by
      rcases s with _ | ⟨a, rest⟩
      · cases hc
      · simp
    unfold ValidateBinName
    rw [if_neg (by simp [hne])]
    by_cases hlen : v.maxBinNameLength < s.length
    · rw [if_pos hlen]
      rfl
    · rw [if_neg hlen]
      have hidf : isValidIdentifier s = false := by
        have : s.all isIdentChar = false :=
          List.all_eq_false.mpr ⟨c, hc, by simp [hbad]⟩
        simp [isValidIdentifier, this]
    
      rw [if_pos hidf]
      rfl

/-- C9 witness: the default configuration (maximum bin-name length 15). -/
theorem claim_C9_witness :
    0 < (NewValidator DefaultValidatorConfig).maxBinNameLength ∧
    ValidateBinName (NewValidator DefaultValidatorConfig) (List.replicate 15 'a') = none ∧
    (ValidateBinName (NewValidator DefaultValidatorConfig) (List.replicate 16 'a')).isSome = true ∧
    (ValidateBinName (NewValidator DefaultValidatorConfig) (String.toList "name@field")).isSome = true ∧
    (ValidateNamespace (NewValidator DefaultValidatorConfig) []).isSome = true ∧
    ValidateSetName (NewValidator DefaultValidatorConfig) [] = none := by
  have h := claim_C9 (NewValidator DefaultValidatorConfig) (by decide)
  exact ⟨by decide, h.1 _ (by decide) (by decide), h.2.1 _ (by decide),
    h.2.2.1 _ '@' (by decide) (by decide), h.2.2.2.1, h.2.2.2.2⟩

/-- C10: ValidateUDFCode rejects a payload exactly when it is empty or its
lowercased text contains one of the four denylisted substrings; in
particular any case mixture of a denylisted call is rejected and any
nonempty payload free of all four substrings is accepted. -/
theorem claim_C10 (v : Validator) (code : List Char) :
    (ValidateUDFCode v code).isSome = true ↔
      code = [] ∨ ∃ p ∈ dangerousPatterns, p <:+: (code.map goToLower) := by
  by_cases hempty : code.isEmpty = true
  · have hnil : code = [] := by simpa using hempty
    subst hnil
    simp [ValidateUDFCode]
  · have hne : ¬ code = [] := by simpa using hempty
    constructor
    · intro h
      right
      unfold ValidateUDFCode at h
      rw [if_neg hempty] at h
      dsimp only at h
      cases hfind : dangerousPatterns.find? (fun pat => goContains (List.map goToLower code) pat) with
      | none => rw [hfind] at h; simp at h
      | some p =>
        exact ⟨p, List.mem_of_find?_eq_some hfind, (goContains_iff _ _).mp (List.find?_some hfind)⟩
    · rintro (h | ⟨p, hmem, hinf⟩)
      · exact absurd h hne
      · unfold ValidateUDFCode
        rw [if_neg hempty]
        dsimp only
        cases hfind : dangerousPatterns.find? (fun pat => goContains (List.map goToLower code) pat) with
        | none =>
          exact absurd ((goContains_iff _ _).mpr hinf)
            (by simpa using List.find?_eq_none.mp hfind p hmem)
        | some q => simp

/-! ## Dispatcher helper lemmas -/

theorem toolsCallInvoke_fst (caps : Capabilities) (st : ServerState) (cp : ToolsCallParams)
    (res : Option ToolsCallResult) (err : Option RpcError) (st2 : ServerState)
    (h : toolsCallInvoke caps st cp = ((res, err), st2)) :
    res.isSome = true ∧ err = none := by
  simp only [toolsCallInvoke] at h
  split at h <;>
    (simp only [Prod.mk.injEq] at h; obtain ⟨⟨h1, h2⟩, -⟩ := h; subst h1; subst h2; simp)

theorem toolsCallInvoke_state (caps : Capabilities) (st : ServerState) (cp : ToolsCallParams) :
    (toolsCallInvoke caps st cp).2.rateLimiter = st.rateLimiter ∧
    (toolsCallInvoke caps st cp).2.toolCalls = st.toolCalls ++ [cp.name] := by
  unfold toolsCallInvoke
  cases caps.toolsCall cp.name cp.arguments <;> exact ⟨rfl, rfl⟩

theorem handleToolsCall_exclusive (caps : Capabilities) (e : ℚ) (st : ServerState)
    (p : ParamsVal) (res : Option ToolsCallResult) (err : Option RpcError) (st2 : ServerState)
    (h : handleToolsCall caps e st p = ((res, err), st2)) :
    (res.isSome = true ∧ err = none) ∨ (res = none ∧ err.isSome = true) := by
  simp only [handleToolsCall] at h
  split at h
  · simp only [Prod.mk.injEq] at h
    obtain ⟨⟨h1, h2⟩, -⟩ := h
    subst h1; subst h2
    right; simp
  · split at h
    · split at h
      · simp only [Prod.mk.injEq] at h
        obtain ⟨⟨h1, h2⟩, -⟩ := h
        subst h1; subst h2
        left; simp
      · exact Or.inl (toolsCallInvoke_fst _ _ _ _ _ _ h)
    · exact Or.inl (toolsCallInvoke_fst _ _ _ _ _ _ h)

theorem handleResourcesRead_exclusive (caps : Capabilities) (p : ParamsVal)
    (res : Option ResourcesReadResult) (err : Option RpcError)
    (h : handleResourcesRead caps p = (res, err)) :
    (res.isSome = true ∧ err = none) ∨ (res = none ∧ err.isSome = true) := by
  simp only [handleResourcesRead] at h
  split at h
  · simp only [Prod.mk.injEq] at h
    obtain ⟨h1, h2⟩ := h
    subst h1; subst h2
    right; simp
  · split at h <;>
      (simp only [Prod.mk.injEq] at h; obtain ⟨h1, h2⟩ := h; subst h1; subst h2)
    · right; simp
    · left; simp

theorem routeMethod_exclusive (caps : Capabilities) (e : ℚ) (st : ServerState)
    (method : String) (params : ParamsVal)
    (h1 : method ≠ "initialized") (h2 : method ≠ "shutdown")
    (res : Option ResultVal) (err : Option RpcError) (st2 : ServerState)
    (h : routeMethod caps e st method params = ((res, err), st2)) :
    (res.isSome = true ∧ err = none) ∨ (res = none ∧ err.isSome = true) := by
  simp only [routeMethod] at h
  split_ifs at h
  · -- initialize
    cases params <;>
      (simp only [handleInitialize, Prod.mk.injEq] at h;
       obtain ⟨⟨ha, hb⟩, -⟩ := h; subst ha; subst hb)
    · left; simp
    · left; simp
    · right; simp
  · -- tools/list
    simp only [Prod.mk.injEq] at h
    obtain ⟨⟨ha, hb⟩, -⟩ := h
    subst ha; subst hb
    left; simp
  · -- tools/call
    rcases hH : handleToolsCall caps e st params with ⟨⟨r0, e0⟩, st0⟩
    rw [hH] at h
    simp only [Prod.mk.injEq] at h
    obtain ⟨⟨ha, hb⟩, -⟩ := h
    subst ha; subst hb
    rcases handleToolsCall_exclusive caps e st params r0 e0 st0 hH with ⟨hs, hn⟩ | ⟨hn, hs⟩
    · subst hn
      left
      exact ⟨by simp [Option.isSome_map, hs], rfl⟩
    · subst hn
      right
      exact ⟨by simp, hs⟩
  · -- resources/list
    simp only [Prod.mk.injEq] at h
    obtain ⟨⟨ha, hb⟩, -⟩ := h
    subst ha; subst hb
    left; simp
  · -- resources/read
    rcases hH : handleResourcesRead caps params with ⟨r0, e0⟩
    rw [hH] at h
    simp only [Prod.mk.injEq] at h
    obtain ⟨⟨ha, hb⟩, -⟩ := h
    subst ha; subst hb
    rcases handleResourcesRead_exclusive caps params r0 e0 hH with ⟨hs, hn⟩ | ⟨hn, hs⟩
    · subst hn
      left
      exact ⟨by simp [Option.isSome_map, hs], rfl⟩
    · subst hn
      right
      exact ⟨by simp, hs⟩
  · -- prompts/list
    simp only [Prod.mk.injEq] at h
    obtain ⟨⟨ha, hb⟩, -⟩ := h
    subst ha; subst hb
    left; simp
  · -- unknown method
    simp only [Prod.mk.injEq] at h
    obtain ⟨⟨ha, hb⟩, -⟩ := h
    subst ha; subst hb
    right; simp

/-! ## Claims about the dispatcher -/

/-- C1 (code bug): dispatching the notification method initialized with an
absent id still produces a response — handleMessage returns a non-nil
Response (with both result and error absent) that the transport loops then
deliver, although the source code comment at the initialized case and the
nil-response guards in every transport loop intend a notification to
produce no response.  The present-id half of the claim (one response whose
id echoes the request id) does hold; the notification half is violated. -/
theorem claim_C1_code_bug :
    (handleMessage capsOk 0 stFresh
        (some { jsonrpc := "2.0", id := none, method := "initialized", params := .absent })).1
      = some { jsonrpc := "2.0", id := none, result := none, error := none } ∧
    ((handleMessage capsOk 0 stFresh
        (some { jsonrpc := "2.0", id := none, method := "initialized", params := .absent })).1).isSome
      = true := by
  exact ⟨rfl, rfl⟩

/-- C2 (counterexample): a resources/read invocation whose downstream read
fails is answered with a protocol-level StructuredError (InternalError,
-32603) carrying the downstream message — not with a successfully-formed
response marking the operation as failed — refuting the claim that a
downstream failure never yields a protocol-level error. -/
theorem claim_C2_counterexample :
    (handleMessage capsFailRes 0 stFresh
        (some { jsonrpc := "2.0", id := some (.num 7), method := "resources/read"
                params := .obj none none (some "aerospike://cluster/info") })).1
      = some { jsonrpc := "2.0", id := some (.num 7), result := none
               error := some { code := InternalErrorCode, message := "Resource read failed"
                               data := some "downstream failure" } } := by
  rfl

/-- C2 (amended): a tools/call invocation that reaches the downstream
capability and fails there is answered with a successfully-formed response
whose payload marks the call as failed and carries the downstream message,
with no protocol-level error; but a resources/read whose downstream read
fails is answered with the protocol-level InternalError carrying the
downstream message. -/
theorem claim_C2_amended (caps : Capabilities) (e : ℚ) (st : ServerState)
    (name msg : String) (args : Option String)
    (hfail : caps.toolsCall name args = .error msg)
    (hreach : isWriteOperation name = false ∨ (st.rateLimiter.Allow e).1 = true) :
    (handleToolsCall caps e st (.obj (some name) args none)).1
      = (some { content := [{ type := "text", text := "Error: " ++ msg }], isError := true },
         none) ∧
    (∀ uri m, caps.resourcesRead uri = .error m →
        handleResourcesRead caps (.obj none none (some uri))
          = (none, some { code := InternalErrorCode, message := "Resource read failed"
                          data := some m })) := by
  have hinv : ∀ st0 : ServerState,
      (toolsCallInvoke caps st0 { name := name, arguments := args }).1
        = (some { content := [{ type := "text", text := "Error: " ++ msg }], isError := true },
           none) := by
    intro st0
    simp only [toolsCallInvoke]
    rw [hfail]
  constructor
  · unfold handleToolsCall
    dsimp only [decodeToolsCall, Option.getD]
    by_cases hw : isWriteOperation name = true
    · rw [if_pos hw]
      rcases hreach with hnw | hallow
      · exact absurd hw (by simp [hnw])
      · rcases hA : st.rateLimiter.Allow e with ⟨b, rl⟩
        rw [hA] at hallow
        dsimp only at hallow
        subst hallow
        exact hinv { st with rateLimiter := rl }
    · rw [if_neg hw]
      exact hinv st
  · intro uri m hr
    unfold handleResourcesRead
    dsimp only [decodeResourcesRead, Option.getD]
    rw [hr]

/-- C2 witness: a read tool whose downstream invocation fails. -/
theorem claim_C2_witness :
    capsFailTool.toolsCall "get_record" none = .error "downstream failure" ∧
    (handleToolsCall capsFailTool 0 stFresh (.obj (some "get_record") none none)).1
      = (some { content := [{ type := "text", text := "Error: downstream failure" }]
                isError := true },
         none) :=
  ⟨rfl,
    (claim_C2_amended capsFailTool 0 stFresh "get_record" "downstream failure" none rfl
      (Or.inl (by decide))).1⟩

/-- The exhausted enabled limiter denies an Allow call with no elapsed
time. -/
theorem stExhausted_deny : (stExhausted.rateLimiter.Allow 0).1 = false := by
  have h := Allow_zero_eq stExhausted.rateLimiter rfl (by norm_num [stExhausted])
  rw [h, if_neg (by norm_num [stExhausted])]

/-- C4 (counterexample): with the enabled rate limiter exhausted (Allow
would deny), a tools/call for the administrative operation create_index is
not short-circuited: the downstream capability is invoked (the invocation
trace grows) and the rate limiter is never consulted (its state is
unchanged), refuting the claim that the administrative operations are
classified as mutating and rate limited. -/
theorem claim_C4_counterexample :
    (stExhausted.rateLimiter.Allow 0).1 = false ∧
    (handleToolsCall capsOk 0 stExhausted (.obj (some "create_index") none none)).2.toolCalls
      = ["create_index"] ∧
    (handleToolsCall capsOk 0 stExhausted (.obj (some "create_index") none none)).2.rateLimiter
      = stExhausted.rateLimiter ∧
    (handleToolsCall capsOk 0 stExhausted (.obj (some "create_index") none none)).1
      = (some { content := [{ type := "text", text := "ok" }], isError := false }, none) := by
  exact ⟨stExhausted_deny, rfl, rfl, rfl⟩

/-- C4 (amended): the dispatcher consults the rate limiter only for the
write operations put_record, delete_record, batch_write and operate — for
those, a denial short-circuits with the tool-level rate-limit error result
and without invoking the capability; the administrative operations
create_index, drop_index, truncate_set, register_udf and remove_udf are
dispatched without consulting the rate limiter and always invoke the
capability. -/
theorem claim_C4_amended (caps : Capabilities) (e : ℚ) (st : ServerState)
    (name : String) (args : Option String) (u : Option String) :
    (isWriteOperation name = true → (st.rateLimiter.Allow e).1 = false →
      (handleToolsCall caps e st (.obj (some name) args u)).1 = (some rateLimitedResult, none) ∧
      (handleToolsCall caps e st (.obj (some name) args u)).2.toolCalls = st.toolCalls) ∧
    (isAdminOperation name = true →
      (handleToolsCall caps e st (.obj (some name) args u)).2.rateLimiter = st.rateLimiter ∧
      (handleToolsCall caps e st (.obj (some name) args u)).2.toolCalls
        = st.toolCalls ++ [name]) := by
  constructor
  · intro hw hdeny
    unfold handleToolsCall
    dsimp only [decodeToolsCall, Option.getD]
    rw [if_pos hw]
    rcases hA : st.rateLimiter.Allow e with ⟨b, rl⟩
    rw [hA] at hdeny
    dsimp only at hdeny
    subst hdeny
    exact ⟨rfl, rfl⟩
  · intro ha
    have hw := admin_not_write name ha
    unfold handleToolsCall
    dsimp only [decodeToolsCall, Option.getD]
    rw [if_neg (by simp [hw])]
    exact toolsCallInvoke_state caps st { name := name, arguments := args }

/-- C4 witness: the write operation put_record against an exhausted
limiter is short-circuited with the rate-limit result. -/
theorem claim_C4_witness :
    isWriteOperation "put_record" = true ∧
    (stExhausted.rateLimiter.Allow 0).1 = false ∧
    (handleToolsCall capsOk 0 stExhausted (.obj (some "put_record") none none)).1
      = (some rateLimitedResult, none) :=
  ⟨by decide, stExhausted_deny,
    ((claim_C4_amended capsOk 0 stExhausted "put_record" none none).1 (by decide)
      stExhausted_deny).1⟩

/-- C5 (counterexample): the response dispatched for the lifecycle method
initialized carries neither a result nor an error, refuting the claim that
every response contains exactly one of the two. -/
theorem claim_C5_counterexample :
    (handleMessage capsOk 0 stFresh
        (some { jsonrpc := "2.0", id := some (.num 1), method := "initialized"
                params := .absent })).1
      = some { jsonrpc := "2.0", id := some (.num 1), result := none, error := none } ∧
    ¬ exclusiveOutcome
        { jsonrpc := "2.0", id := some (.num 1), result := none, error := none } := by
  constructor
  · rfl
  · intro h
    rcases h with ⟨h1, -⟩ | ⟨-, h2⟩
    · simp at h1
    · simp at h2

/-- C5 (amended): every dispatched response contains at most one of result
and error, and contains exactly one except for the responses produced for
the lifecycle notification methods initialized and shutdown, which contain
neither. -/
theorem claim_C5_amended (caps : Capabilities) (e : ℚ) (st : ServerState)
    (msg : Option Request) (r : Response)
    (h : (handleMessage caps e st msg).1 = some r) :
    (r.result = none ∨ r.error = none) ∧
    (msg = none → exclusiveOutcome r) ∧
    (∀ req, msg = some req → req.method ≠ "initialized" → req.method ≠ "shutdown" →
        exclusiveOutcome r) := by
  cases msg with
  | none =>
    simp only [handleMessage, Option.some.injEq] at h
    subst h
    refine ⟨Or.inl rfl, fun _ => Or.inr ⟨rfl, rfl⟩, ?_⟩
    intro req hreq
    exact Option.noConfusion hreq
  | some req =>
    simp only [handleMessage] at h
    by_cases hj : req.jsonrpc = "2.0"
    · rw [if_neg (by simp [hj])] at h
      rcases hR : routeMethod caps e st req.method req.params with ⟨⟨res, err⟩, st2⟩
      rw [hR] at h
      cases err with
      | some er =>
        simp only [Option.some.injEq] at h
        subst h
        refine ⟨Or.inl rfl, ?_, ?_⟩
        · intro h0
          exact Option.noConfusion h0
        · intro req0 hreq hni hns
          exact Or.inr ⟨rfl, rfl⟩
      | none =>
        simp only [Option.some.injEq] at h
        subst h
        refine ⟨Or.inr rfl, ?_, ?_⟩
        · intro h0
          exact Option.noConfusion h0
        · intro req0 hreq hni hns
          have hq : req = req0 := by injection hreq
          subst hq
          rcases routeMethod_exclusive caps e st req.method req.params hni hns res none st2 hR
            with ⟨hs, -⟩ | ⟨-, hn⟩
          · exact Or.inl ⟨hs, rfl⟩
          · simp at hn
    · rw [if_pos hj] at h
      simp only [Option.some.injEq] at h
      subst h
      refine ⟨Or.inl rfl, ?_, ?_⟩
      · intro h0
        exact Option.noConfusion h0
      · intro req0 hreq hni hns
        exact Or.inr ⟨rfl, rfl⟩

/-- C5 witness: the parse-error response for unparseable bytes satisfies
the amended property with exactly one (the error) present. -/
theorem claim_C5_witness :
    (parseErrorResponse.result = none ∨ parseErrorResponse.error = none) ∧
    exclusiveOutcome parseErrorResponse := by
  have h := claim_C5_amended capsOk 0 stFresh none parseErrorResponse rfl
  exact ⟨h.1, h.2.1 rfl⟩

/-- C6: a tools/call for a rate-limited (write) operation submitted while
the enabled limiter denies is answered with a well-formed response — the
request id echoed, no protocol error — whose result marks the call as
failed with the throttling message, and exactly one audit event, of
severity warning, is recorded on the sink for that call; the downstream
capability is not invoked. -/
theorem claim_C6 (caps : Capabilities) (e : ℚ) (st : ServerState) (req : Request)
    (id : Option RpcId) (name : String) (args : Option String) (u : Option String)
    (hreq : req = { jsonrpc := "2.0", id := id, method := "tools/call"
                    params := .obj (some name) args u })
    (hw : isWriteOperation name = true)
    (hdeny : (st.rateLimiter.Allow e).1 = false)
    (haudit : st.audit.enabled = true) :
    (handleMessage caps e st (some req)).1
      = some { jsonrpc := "2.0", id := id
               result := some (.toolsCallRes rateLimitedResult), error := none } ∧
    rateLimitedResult.isError = true ∧
    (rateLimitEvent name).level = .warning ∧
    (handleMessage caps e st (some req)).2.audit.sink
      = st.audit.sink ++ [rateLimitEvent name] ∧
    (handleMessage caps e st (some req)).2.toolCalls = st.toolCalls := by
  subst hreq
  have hTC : handleToolsCall caps e st (.obj (some name) args u)
      = ((some rateLimitedResult, none),
         { st with rateLimiter := (st.rateLimiter.Allow e).2
                   audit := st.audit.Log (rateLimitEvent name) }) := by
    unfold handleToolsCall
    dsimp only [decodeToolsCall, Option.getD]
    rw [if_pos hw]
    rcases hA : st.rateLimiter.Allow e with ⟨b, rl⟩
    rw [hA] at hdeny
    dsimp only at hdeny
    subst hdeny
    rfl
  have hMsg : handleMessage caps e st
        (some { jsonrpc := "2.0", id := id, method := "tools/call"
                params := .obj (some name) args u })
      = (some { jsonrpc := "2.0", id := id
                result := some (.toolsCallRes rateLimitedResult), error := none },
         { st with rateLimiter := (st.rateLimiter.Allow e).2
                   audit := st.audit.Log (rateLimitEvent name) }) := by
    unfold handleMessage
    dsimp only
    rw [if_neg (by simp)]
    unfold routeMethod
    rw [if_neg (by decide), if_neg (by decide), if_neg (by decide), if_neg (by decide),
      if_pos rfl, hTC]
    rfl
  refine ⟨by rw [hMsg], rfl, rfl, ?_, by rw [hMsg]⟩
  rw [hMsg]
  dsimp only
  unfold Logger.Log
  rw [if_neg (by simp [haudit])]

/-- C6 witness: put_record against the exhausted limiter with audit
enabled. -/
theorem claim_C6_witness :
    isWriteOperation "put_record" = true ∧
    (stExhausted.rateLimiter.Allow 0).1 = false ∧
    stExhausted.audit.enabled = true ∧
    (handleMessage capsOk 0 stExhausted
        (some { jsonrpc := "2.0", id := some (.num 1), method := "tools/call"
                params := .obj (some "put_record") none none })).1
      = some { jsonrpc := "2.0", id := some (.num 1)
               result := some (.toolsCallRes rateLimitedResult), error := none } :=
  ⟨by decide, stExhausted_deny, rfl,
    (claim_C6 capsOk 0 stExhausted _ (some (.num 1)) "put_record" none none rfl
      (by decide) stExhausted_deny rfl).1⟩
